import Mathlib

set_option maxRecDepth 8000

/-!
Verification of the autonomous CI/CD remediation scripts
(`scripts/pr_self_heal.py`, `scripts/ai_rules_audit.py`).

Strings are embedded as `List Char`; the Python string primitives used by
the scripts (`find`, `in`, slicing, `strip`, `count`, `lower`) are defined
below with Python semantics.  Subprocess and network calls are modelled by
environments recording each external call's outcome (`Option` for calls
whose failure raises an exception, `Except` for the `Popen` pipelines whose
exceptions `apply_patch` catches); the orchestrators become total functions
from an environment to an exit code plus a trace of external side effects.
-/

/-- Python `str.find`: index of the first occurrence of `sub` in `s`,
`none` when there is no occurrence (Python's `-1`). -/
def findSub (sub : List Char) : List Char → Option Nat
  | [] => if sub.isPrefixOf ([] : List Char) then some 0 else none
  | c :: t =>
    if sub.isPrefixOf (c :: t) then some 0
    else (findSub sub t).map (fun n => n + 1)

/-- Python `str.find(sub, start)`: first occurrence at an index `≥ i`. -/
def findSubFrom (sub s : List Char) (i : Nat) : Option Nat :=
  (findSub sub (s.drop i)).map (fun n => n + i)

/-- Python `sub in s`. -/
def containsSub (sub s : List Char) : Bool :=
  (findSub sub s).isSome

/-- Python slice `s[a:b]` (for the non-negative indices the scripts use). -/
def seg (s : List Char) (a b : Nat) : List Char :=
  (s.drop a).take (b - a)

/-- The characters Python `str.strip()` removes. -/
def isPySpace (c : Char) : Bool :=
  c = ' ' || c = '\t' || c = '\n' || c = '\x0b' || c = '\x0c' || c = '\r'

/-- Python `str.strip()`: drop whitespace from both ends. -/
def pyStrip (s : List Char) : List Char :=
  ((s.dropWhile isPySpace).reverse.dropWhile isPySpace).reverse

/-- Helper for `pyCount`: when `skip` is positive we are inside a match
already counted and merely advance. -/
def pyCountAux (sub : List Char) : Nat → List Char → Nat
  | _, [] => 0
  | Nat.succ k, _ :: t => pyCountAux sub k t
  | 0, c :: t =>
    if sub.isPrefixOf (c :: t) then 1 + pyCountAux sub (sub.length - 1) t
    else pyCountAux sub 0 t

/-- Python `s.count(sub)` for non-empty `sub`: number of non-overlapping
occurrences, scanning left to right. -/
def pyCount (sub s : List Char) : Nat :=
  pyCountAux sub 0 s

/-- ASCII lowercasing of one character (the auditor's needles are ASCII). -/
def asciiLower (c : Char) : Char :=
  if 'A' ≤ c ∧ c ≤ 'Z' then Char.ofNat (c.toNat + 32) else c

/-- Python `str.lower()` restricted to ASCII, which is all the auditor's
substring check inspects. -/
def lowerStr (s : List Char) : List Char :=
  s.map asciiLower

/-! ## `pr_self_heal.py`: constants and pure text functions -/

/-- `MAX_COMMITS_PER_PR = 2`. -/
def MAX_COMMITS_PER_PR : Nat := 2

/-- `COMMIT_MARKER = "[ai-self-heal]"`. -/
def COMMIT_MARKER : List Char := ("[ai-self-heal]").toList

/-- `already_healed`: `run(["git","log","--oneline","-5"])` has produced
`log`; the function is `log.count(COMMIT_MARKER) >= MAX_COMMITS_PER_PR`. -/
def already_healed (log : List Char) : Bool :=
  decide (MAX_COMMITS_PER_PR ≤ pyCount COMMIT_MARKER log)

/-- The opening fence `extract_patch` searches for. -/
def fenceDiff : List Char := ("```diff").toList

/-- The closing fence `extract_patch` searches for. -/
def fenceClose : List Char := ("```").toList

/-- The bare unified-diff header token `"diff --git"`. -/
def diffGit : List Char := ("diff --git").toList

/-- The two `if` statements of `extract_patch` after the fenced-block
attempt: first occurrence of `"diff --git"` to the end, stripped; else the
whole response. -/
def extract_patch_tail (response : List Char) : List Char :=
  match findSub diffGit response with
  | some s => pyStrip (response.drop s)
  | none => response

/-- `extract_patch(response)`: fenced `` ```diff `` block interior when a
closing fence follows strictly after the interior start; else fall through
to the bare-header search; else return `response` itself. -/
def extract_patch (response : List Char) : List Char :=
  match findSub fenceDiff response with
  | some i =>
    let start := i + 7
    match findSubFrom fenceClose response start with
    | some e =>
      if start < e then pyStrip (seg response start e)
      else extract_patch_tail response
    | none => extract_patch_tail response
  | none => extract_patch_tail response

/-- The guard of `extract_patch`'s fenced branch, as one predicate: the
response holds an opening fence and a closing fence strictly after the
interior start. -/
def hasFencedDiff (response : List Char) : Bool :=
  match findSub fenceDiff response with
  | some i =>
    match findSubFrom fenceClose response (i + 7) with
    | some e => decide (i + 7 < e)
    | none => false
  | none => false

/-- `max_chars = 8000` in `generate_fix`. -/
def max_chars : Nat := 8000

/-- The marker `"\n... [truncated]"` appended by `generate_fix`. -/
def truncMarker : List Char := ("\n... [truncated]").toList

/-- The truncation step of `generate_fix`:
`diff = diff[:max_chars] + "\n... [truncated]"` when `len(diff) > max_chars`. -/
def truncateDiff (diff : List Char) : List Char :=
  if max_chars < diff.length then diff.take max_chars ++ truncMarker else diff

/-- The prompt text of `generate_fix` before the interpolated diff. -/
def promptPre : List Char :=
  ("\nYou are a Senior Software Engineer acting as a PR self-healing agent.\n\nRules:\n- Follow .ai/CLAUDE_RULES.md strictly\n- Do NOT introduce new dependencies\n- Do NOT weaken CI/CD, security, or coverage\n- Only fix what is necessary to pass CI\n\nInput:\nGit diff:\n").toList

/-- The prompt text of `generate_fix` after the interpolated diff. -/
def promptPost : List Char :=
  ("\n\nTask:\n1. Identify why CI or rules likely failed\n2. Propose concrete code fixes\n3. Output ONLY a unified diff (git apply compatible)\n\nOutput format:\n```diff\ndiff --git a/path/to/file b/path/to/file\n--- a/path/to/file\n+++ b/path/to/file\n@@ -line,count +line,count @@\n context\n-removed line\n+added line\n context\n```\n").toList

/-- The prompt `generate_fix` sends to `ask_ai`: the f-string with the
(possibly truncated) diff interpolated. -/
def generate_fix_prompt (diff : List Char) : List Char :=
  promptPre ++ truncateDiff diff ++ promptPost

/-! ## Effect model: external calls and the orchestrators -/

/-- Observable side effects performed by a run of the repair agent beyond
reading the commit log. -/
inductive Event where
  | fetchDiff
  | modelCall
  | applyCheck
  | applyReal
  | commit
  | push
deriving DecidableEq, Repr

/-- Outcomes of the two `Popen` pipelines in `apply_patch`: an exception
(`error` with `str(e)`) or the subprocess's `(returncode, stderr)`. -/
structure ApplyEnv where
  checkRun : Except (List Char) (Int × List Char)
  applyRun : Except (List Char) (Int × List Char)

/-- `apply_patch`: dry-run `git apply --check`; on nonzero return code stop
with `(False, stderr)`; otherwise run the real `git apply`.  Any exception
in the `try` block becomes `(False, str(e))`.  The event list records which
of the two subprocesses were launched. -/
def apply_patch (aenv : ApplyEnv) : (Bool × List Char) × List Event :=
  match aenv.checkRun with
  | Except.error e => ((false, e), [Event.applyCheck])
  | Except.ok (rc, err) =>
    if rc ≠ 0 then ((false, err), [Event.applyCheck])
    else
      match aenv.applyRun with
      | Except.error e => ((false, e), [Event.applyCheck, Event.applyReal])
      | Except.ok (rc2, err2) =>
        ((rc2 == 0, err2), [Event.applyCheck, Event.applyReal])

/-- One run's worth of external-call outcomes for `pr_self_heal.main`.
`none` in an `Option` field means that call raised an exception. -/
structure GitEnv where
  log : Option (List Char)
  diffMain : Option (List Char)
  diffHead1 : Option (List Char)
  aiResponse : Option (List Char)
  checkRun : Except (List Char) (Int × List Char)
  applyRun : Except (List Char) (Int × List Char)
  commitOk : Bool
  pushOk : Bool

/-- `get_failures`: `git diff origin/main...HEAD`, on exception
`git diff HEAD~1`; a failure of the fallback is NOT caught, so `none`
here means the exception propagates to `main`. -/
def get_failures (diffMain diffHead1 : Option (List Char)) :
    Option (List Char) :=
  match diffMain with
  | some d => some d
  | none => diffHead1

/-- `ai_rules_audit.get_diff`: same two-tier fallback, but the second
failure is also caught and `""` returned. -/
def get_diff (diffMain diffHead1 : Option (List Char)) : List Char :=
  match diffMain with
  | some d => d
  | none =>
    match diffHead1 with
    | some d => d
    | none => []

/-- `pr_self_heal.main` as a function of the run's external outcomes:
`Except.error ()` is an uncaught Python exception (the interpreter dies
with a traceback), `Except.ok (code, events)` a `sys.exit(code)` after the
recorded external side effects. -/
def mainRun (env : GitEnv) : Except Unit (Nat × List Event) :=
  match env.log with
  | none => Except.error ()
  | some log =>
    if already_healed log then Except.ok (0, [])
    else
      match get_failures env.diffMain env.diffHead1 with
      | none => Except.error ()
      | some diff =>
        if (pyStrip diff).isEmpty then Except.ok (0, [Event.fetchDiff])
        else
          match env.aiResponse with
          | none => Except.ok (0, [Event.fetchDiff, Event.modelCall])
          | some response =>
            let patch := extract_patch response
            if containsSub diffGit patch = false then
              Except.ok (0, [Event.fetchDiff, Event.modelCall])
            else
              let r := apply_patch ⟨env.checkRun, env.applyRun⟩
              if r.1.1 = false then
                Except.ok (0, [Event.fetchDiff, Event.modelCall] ++ r.2)
              else if env.commitOk then
                if env.pushOk then
                  Except.ok (0, [Event.fetchDiff, Event.modelCall] ++ r.2
                    ++ [Event.commit, Event.push])
                else
                  Except.ok (1, [Event.fetchDiff, Event.modelCall] ++ r.2
                    ++ [Event.commit, Event.push])
              else
                Except.ok (1, [Event.fetchDiff, Event.modelCall] ++ r.2
                  ++ [Event.commit])

/-! ## `ai_rules_audit.py` -/

/-- First needle of the auditor's violation check. -/
def violTrue1 : List Char := ("\"violation\": true").toList

/-- Second needle of the auditor's violation check. -/
def violTrue2 : List Char := ("\"violation\":true").toList

/-- The auditor's violation test: a literal JSON substring match against
the lowercased raw response. -/
def audit_violation_check (response : List Char) : Bool :=
  containsSub violTrue1 (lowerStr response)
    || containsSub violTrue2 (lowerStr response)

/-- `ai_rules_audit.main` as a function of its external outcomes: the exit
code.  Empty (stripped) diff exits 0 before the model call; a raised
`ask_ai` (`aiResponse = none`) is caught and exits 0; otherwise exit 1
exactly when the substring check fires. -/
def audit_main (diffMain diffHead1 aiResponse : Option (List Char)) : Nat :=
  let diff := get_diff diffMain diffHead1
  if (pyStrip diff).isEmpty then 0
  else
    match aiResponse with
    | none => 0
    | some response => if audit_violation_check response then 1 else 0

/-! ## Helper lemmas -/

theorem isPrefixOf_append_self (l r : List Char) :
    l.isPrefixOf (l ++ r) = true := by
  induction l with
  | nil => simp [List.isPrefixOf]
  | cons c t ih => simp [List.isPrefixOf, ih]

theorem containsSub_self_append (sub u : List Char) :
    containsSub sub (sub ++ u) = true := by
  have hp : sub.isPrefixOf (sub ++ u) = true := isPrefixOf_append_self sub u
  unfold containsSub
  cases h : sub ++ u with
  | nil => rw [h] at hp; simp [findSub, hp]
  | cons c t => rw [h] at hp; simp [findSub, hp]

theorem containsSub_cons_of (sub : List Char) (c : Char) (t : List Char)
    (h : containsSub sub t = true) : containsSub sub (c :: t) = true := by
  unfold containsSub at h ⊢
  rw [findSub]
  by_cases hp : sub.isPrefixOf (c :: t)
  · simp [hp]
  · simp [hp, h]

theorem containsSub_parts (sub t u : List Char) :
    containsSub sub (t ++ (sub ++ u)) = true := by
  induction t with
  | nil => simpa using containsSub_self_append sub u
  | cons c t ih => simpa using containsSub_cons_of sub c _ ih

theorem containsSub_eq_false_iff (sub s : List Char) :
    containsSub sub s = false ↔ findSub sub s = none := by
  unfold containsSub
  cases h : findSub sub s <;> simp

theorem apply_patch_events (aenv : ApplyEnv) :
    (apply_patch aenv).2 = [Event.applyCheck] ∨
      (apply_patch aenv).2 = [Event.applyCheck, Event.applyReal] := by
  unfold apply_patch
  cases aenv.checkRun with
  | error e => exact Or.inl rfl
  | ok p =>
    obtain ⟨rc, err⟩ := p
    by_cases hrc : rc = 0
    · cases aenv.applyRun with
      | error e => simp [hrc]
      | ok q => simp [hrc]
    · simp [hrc]

theorem commit_push_not_in_apply_events (aenv : ApplyEnv) :
    Event.commit ∉ (apply_patch aenv).2 ∧
      Event.push ∉ (apply_patch aenv).2 := by
  rcases apply_patch_events aenv with h | h <;> rw [h] <;>
    exact ⟨by decide, by decide⟩

example : extract_patch ("hello").toList = ("hello").toList := by decide
example :
    extract_patch ("x ```diff\nA\n``` y").toList = ("A").toList := by decide
example :
    extract_patch ("p diff --git q").toList = ("diff --git q").toList := by
  decide
example : already_healed ("[ai-self-heal] a [ai-self-heal] b").toList = true := by
  decide
example : already_healed ("[ai-self-heal] a").toList = false := by decide

/-! ## Claim theorems -/

/-- C1: whenever the dry run (`git apply --check`) reports failure (a
nonzero return code), `apply_patch` returns `(False, diagnostic)` with the
tool's stderr as diagnostic, and the real `git apply` subprocess is never
launched (the working tree stays untouched); moreover the real apply runs
only when the dry run returned code 0. -/
theorem apply_patch_dry_run_gate (aenv : ApplyEnv) :
    (∀ rc err, aenv.checkRun = Except.ok (rc, err) → rc ≠ 0 →
      apply_patch aenv = ((false, err), [Event.applyCheck]) ∧
        Event.applyReal ∉ (apply_patch aenv).2) ∧
    (Event.applyReal ∈ (apply_patch aenv).2 →
      ∃ err, aenv.checkRun = Except.ok (0, err)) := by
  constructor
  · intro rc err h hrc
    have he : apply_patch aenv = ((false, err), [Event.applyCheck]) := by
      simp [apply_patch, h, hrc]
    refine ⟨he, ?_⟩
    rw [he]
    simp
  · intro h
    cases hc : aenv.checkRun with
    | error e => rw [apply_patch, hc] at h; simp at h
    | ok p =>
      obtain ⟨rc, err⟩ := p
      by_cases hrc : rc = 0
      · subst hrc
        exact ⟨err, rfl⟩
      · rw [apply_patch, hc] at h
        simp [hrc] at h

/-- C1 witness: a dry run returning code 1 with diagnostic `"bad"`. -/
theorem apply_patch_dry_run_gate_witness :
    apply_patch ⟨Except.ok (1, ("bad").toList), Except.ok (0, [])⟩
        = ((false, ("bad").toList), [Event.applyCheck]) ∧
      Event.applyReal ∉ (apply_patch ⟨Except.ok (1, ("bad").toList),
        Except.ok (0, [])⟩).2 :=
  (apply_patch_dry_run_gate ⟨Except.ok (1, ("bad").toList),
      Except.ok (0, [])⟩).1 1 ("bad").toList rfl (by decide)

/-- C5: when the last-5-commits log already carries the ceiling
(`MAX_COMMITS_PER_PR = 2`) of `[ai-self-heal]` markers, `main` exits 0
having performed no external side effect at all: in particular no diff
fetch and no model call. -/
theorem ceiling_stops_before_work (env : GitEnv) (log : List Char)
    (hlog : env.log = some log) (hheal : already_healed log = true) :
    mainRun env = Except.ok (0, []) := by
  simp [mainRun, hlog, hheal]

/-- C5 witness: a log with two marker-tagged entries in the window. -/
theorem ceiling_stops_before_work_witness :
    mainRun ⟨some ("[ai-self-heal] a\n[ai-self-heal] b").toList,
        some ("x").toList, none, none, Except.ok (0, []),
        Except.ok (0, []), true, true⟩ = Except.ok (0, []) :=
  ceiling_stops_before_work _ ("[ai-self-heal] a\n[ai-self-heal] b").toList
    rfl (by decide)

/-- C10: `apply_patch` is total towards its caller: an exception while
running the dry-run pipeline, or while running the real apply, is caught
and becomes `(False, str(e))`; consequently `main` — which wraps this call
in no handler — always terminates with an exit code (never an uncaught
exception) once it survives the unguarded `git log` and diff calls, for
every possible outcome of the two apply subprocesses. -/
theorem apply_patch_total_no_crash :
    (∀ aenv e, aenv.checkRun = Except.error e →
      (apply_patch aenv).1 = (false, e)) ∧
    (∀ aenv err e, aenv.checkRun = Except.ok (0, err) →
      aenv.applyRun = Except.error e → (apply_patch aenv).1 = (false, e)) ∧
    (∀ env log diff, env.log = some log → env.diffMain = some diff →
      ∃ c evs, mainRun env = Except.ok (c, evs)) := by
  refine ⟨?_, ?_, ?_⟩
  · intro aenv e h
    simp [apply_patch, h]
  · intro aenv err e hc ha
    simp [apply_patch, hc, ha]
  · intro env log diff hlog hdm
    unfold mainRun
    rw [hlog, hdm]
    simp only [get_failures]
    by_cases h1 : already_healed log
    · exact ⟨0, [], by simp [h1]⟩
    · by_cases h2 : (pyStrip diff).isEmpty
      · exact ⟨0, [Event.fetchDiff], by simp [h1, h2]⟩
      · cases h3 : env.aiResponse with
        | none => exact ⟨0, [Event.fetchDiff, Event.modelCall],
            by simp [h1, h2, h3]⟩
        | some response =>
          by_cases h4 :
              containsSub diffGit (extract_patch response) = false
          · exact ⟨0, [Event.fetchDiff, Event.modelCall],
              by simp [h1, h2, h3, h4]⟩
          · by_cases h5 :
                (apply_patch ⟨env.checkRun, env.applyRun⟩).1.1 = false
            · exact ⟨0, [Event.fetchDiff, Event.modelCall]
                  ++ (apply_patch ⟨env.checkRun, env.applyRun⟩).2,
                by simp [h1, h2, h3, h4, h5]⟩
            · by_cases h6 : env.commitOk
              · by_cases h7 : env.pushOk
                · exact ⟨0, [Event.fetchDiff, Event.modelCall]
                      ++ (apply_patch ⟨env.checkRun, env.applyRun⟩).2
                      ++ [Event.commit, Event.push],
                    by simp [h1, h2, h3, h4, h5, h6, h7]⟩
                · exact ⟨1, [Event.fetchDiff, Event.modelCall]
                      ++ (apply_patch ⟨env.checkRun, env.applyRun⟩).2
                      ++ [Event.commit, Event.push],
                    by simp [h1, h2, h3, h4, h5, h6, h7]⟩
              · exact ⟨1, [Event.fetchDiff, Event.modelCall]
                    ++ (apply_patch ⟨env.checkRun, env.applyRun⟩).2
                    ++ [Event.commit],
                  by simp [h1, h2, h3, h4, h5, h6]⟩

/-- C10 witness: the dry-run pipeline raises (`Except.error`), and `main`
still terminates with an exit code. -/
theorem apply_patch_total_no_crash_witness :
    (apply_patch ⟨Except.error ("boom").toList, Except.ok (0, [])⟩).1
        = (false, ("boom").toList) ∧
    ∃ c evs,
      mainRun ⟨some [], some ("x").toList, none, some ("y").toList,
          Except.error ("boom").toList, Except.ok (0, []), true, true⟩
        = Except.ok (c, evs) :=
  ⟨apply_patch_total_no_crash.1 _ ("boom").toList rfl,
   apply_patch_total_no_crash.2.2 _ [] ("x").toList rfl rfl⟩

/-- C7: if the response holds an opening fence (first occurrence at `i`)
with a closing fence strictly after the interior start `i + 7`,
`extract_patch` returns exactly that interior slice stripped of
surrounding whitespace; if there is no properly fenced block but the
response holds `"diff --git"` (first occurrence at `s`), it returns the
suffix from `s` to the end, stripped. -/
theorem extract_patch_two_tier (response : List Char) :
    (∀ i e, findSub fenceDiff response = some i →
      findSubFrom fenceClose response (i + 7) = some e → i + 7 < e →
      extract_patch response = pyStrip (seg response (i + 7) e)) ∧
    (hasFencedDiff response = false →
      ∀ s, findSub diffGit response = some s →
      extract_patch response = pyStrip (response.drop s)) := by
  constructor
  · intro i e hi he hlt
    simp [extract_patch, hi, he, hlt]
  · intro hnf s hs
    unfold hasFencedDiff at hnf
    split at hnf
    · rename_i i hfd
      split at hnf
      · rename_i e hfc
        simp only [decide_eq_false_iff_not] at hnf
        simp [extract_patch, hfd, hfc, hnf, extract_patch_tail, hs]
      · rename_i hfc
        simp [extract_patch, hfd, hfc, extract_patch_tail, hs]
    · rename_i hfd
      simp [extract_patch, hfd, extract_patch_tail, hs]

/-- C7 witness: a fenced response and a bare-header response. -/
theorem extract_patch_two_tier_witness :
    extract_patch ("x ```diff\nA\n``` y").toList
        = pyStrip (seg ("x ```diff\nA\n``` y").toList 9 12) ∧
    extract_patch ("p diff --git q").toList
        = pyStrip ((("p diff --git q").toList).drop 2) :=
  ⟨(extract_patch_two_tier _).1 2 12 (by decide) (by decide) (by decide),
   (extract_patch_two_tier _).2 (by decide) 2 (by decide)⟩

/-- C9: an opening fence with no closing fence anywhere after the interior
start is not treated as a fenced block: `extract_patch` falls through to
the bare-header rule — the stripped suffix from the first `"diff --git"`
occurrence (searched from the start of the whole response, so it may lie
before the fence), or the original response when that token is absent. -/
theorem unclosed_fence_falls_through (response : List Char) (i : Nat)
    (hi : findSub fenceDiff response = some i)
    (hc : findSubFrom fenceClose response (i + 7) = none) :
    (∀ s, findSub diffGit response = some s →
      extract_patch response = pyStrip (response.drop s)) ∧
    (findSub diffGit response = none →
      extract_patch response = response) := by
  constructor
  · intro s hs
    simp [extract_patch, hi, hc, extract_patch_tail, hs]
  · intro hn
    simp [extract_patch, hi, hc, extract_patch_tail, hn]

/-- C8: the policy auditor exits 1 exactly when the (stripped) diff is
non-empty, the model call succeeded, and the lowercased raw response
contains one of the two literal JSON needles `"violation": true` /
`"violation":true`; an empty diff, a raised model call, and a response
without the needles all exit 0. -/
theorem audit_exit_one_iff (dm dh ar : Option (List Char)) :
    audit_main dm dh ar = 1 ↔
      ((pyStrip (get_diff dm dh)).isEmpty = false ∧
        ∃ r, ar = some r ∧
          (containsSub violTrue1 (lowerStr r)
            || containsSub violTrue2 (lowerStr r)) = true) := by
  unfold audit_main
  by_cases hd : (pyStrip (get_diff dm dh)).isEmpty
  · simp [hd]
  · cases ar with
    | none => simp [hd]
    | some r =>
      by_cases hv : audit_violation_check r = true
      · simp only [audit_violation_check, Bool.or_eq_true] at hv
        simp [hd, hv, audit_violation_check, Bool.or_eq_true]
      · simp only [audit_violation_check, Bool.or_eq_true] at hv
        push_neg at hv
        simp [hd, audit_violation_check, Bool.or_eq_true, hv]

/-- C3 counterexample: `"hello"` contains neither a fenced diff block nor
the `"diff --git"` token, yet `extract_patch` returns the input text
itself as a string result — it does not signal failure. -/
theorem extract_patch_returns_input_counterexample :
    containsSub fenceDiff ("hello").toList = false ∧
    containsSub diffGit ("hello").toList = false ∧
    extract_patch ("hello").toList = ("hello").toList := by decide

/-- C3 amended: for text containing neither shape, `extract_patch` returns
the input text unchanged; the run-failure signal lives in the caller:
`main` tests `"diff --git" not in patch` on the returned value and exits 0
(fail-open) without any patch application, commit or push. -/
theorem extract_patch_no_shape_amended (response : List Char)
    (hf : containsSub fenceDiff response = false)
    (hg : containsSub diffGit response = false) :
    extract_patch response = response ∧
    (∀ env log diff, env.log = some log → already_healed log = false →
      env.diffMain = some diff → (pyStrip diff).isEmpty = false →
      env.aiResponse = some response →
      mainRun env = Except.ok (0, [Event.fetchDiff, Event.modelCall])) := by
  have hf' := (containsSub_eq_false_iff fenceDiff response).mp hf
  have hg' := (containsSub_eq_false_iff diffGit response).mp hg
  have hep : extract_patch response = response := by
    simp [extract_patch, hf', extract_patch_tail, hg']
  refine ⟨hep, ?_⟩
  intro env log diff hlog hheal hdm hne hair
  have hcp : containsSub diffGit (extract_patch response) = false := by
    rw [hep]; exact hg
  unfold mainRun
  rw [hlog, hdm]
  simp [get_failures, hheal, hne, hair, hcp]

/-- C3 amended witness: a prose-only response inside a full run. -/
theorem extract_patch_no_shape_amended_witness :
    extract_patch ("nothing here").toList = ("nothing here").toList ∧
    mainRun ⟨some [], some ("x").toList, none, some ("nothing here").toList,
        Except.ok (0, []), Except.ok (0, []), true, true⟩
      = Except.ok (0, [Event.fetchDiff, Event.modelCall]) := by
  have h := extract_patch_no_shape_amended ("nothing here").toList
    (by decide) (by decide)
  exact ⟨h.1, h.2 _ [] ("x").toList rfl (by decide) rfl (by decide) rfl⟩

/-- C4 counterexample: when both the reference-branch diff and the one
revision back fallback raise, the repair agent's `get_failures` does not
return an empty diff — the second exception is uncaught (`none`), and in a
run it propagates out of `main` (`Except.error`, the interpreter dies). -/
theorem get_failures_propagates_counterexample :
    get_failures none none = none ∧
    mainRun ⟨some ("a").toList, none, none, none, Except.ok (0, []),
        Except.ok (0, []), true, true⟩ = Except.error () :=
  ⟨rfl, rfl⟩

/-- C4 amended: the auditor's `get_diff` never raises — reference-branch
diff when that call succeeds, else the one revision back fallback, else
the empty diff; the repair agent's `get_failures` takes the same first two
tiers but catches only the first failure, so when both calls fail the
exception propagates to its caller instead of an empty diff. -/
theorem diff_extractor_fallback_amended (dm dh : Option (List Char)) :
    (∀ d, dm = some d → get_diff dm dh = d ∧ get_failures dm dh = some d) ∧
    (dm = none → ∀ d, dh = some d →
      get_diff dm dh = d ∧ get_failures dm dh = some d) ∧
    (dm = none → dh = none →
      get_diff dm dh = [] ∧ get_failures dm dh = none) := by
  refine ⟨?_, ?_, ?_⟩
  · intro d h
    subst h
    exact ⟨rfl, rfl⟩
  · intro h d h2
    subst h
    subst h2
    exact ⟨rfl, rfl⟩
  · intro h h2
    subst h
    subst h2
    exact ⟨rfl, rfl⟩

/-- C4 amended witness: the fallback tier and the both-fail tier at
concrete arguments. -/
theorem diff_extractor_fallback_amended_witness :
    (get_diff none (some ("d").toList) = ("d").toList ∧
      get_failures none (some ("d").toList) = some ("d").toList) ∧
    (get_diff none none = [] ∧ get_failures none none = none) :=
  ⟨(diff_extractor_fallback_amended none (some ("d").toList)).2.1 rfl
      ("d").toList rfl,
   (diff_extractor_fallback_amended none none).2.2 rfl rfl⟩

/-- C6 counterexample: for a diff one character over the 8,000-character
budget, the prompt `generate_fix` builds is strictly longer than budget
plus marker length — the fixed instruction template around the diff pushes
it over. -/
theorem prompt_length_counterexample :
    max_chars < (List.replicate 8001 'a').length ∧
    max_chars + truncMarker.length
      < (generate_fix_prompt (List.replicate 8001 'a')).length := by
  have hc : max_chars < (List.replicate 8001 'a').length := by
    rw [List.length_replicate]
    decide
  refine ⟨hc, ?_⟩
  have hpre : 0 < promptPre.length := by decide
  have ht : (truncateDiff (List.replicate 8001 'a')).length
      = max_chars + truncMarker.length := by
    rw [truncateDiff, if_pos hc, List.length_append, List.length_take,
      List.length_replicate]
    simp only [max_chars]
    omega
  simp only [generate_fix_prompt, List.length_append, ht]
  omega

/-- C6 amended: for a diff longer than the budget, the prompt contains the
truncation marker and its length is exactly the budget plus the marker
length plus the length of the fixed prompt template around the diff (the
budget bounds only the embedded diff payload, not the whole prompt). -/
theorem prompt_truncation_amended (diff : List Char)
    (h : max_chars < diff.length) :
    containsSub truncMarker (generate_fix_prompt diff) = true ∧
    (generate_fix_prompt diff).length
      = promptPre.length + max_chars + truncMarker.length
        + promptPost.length := by
  constructor
  · have hp := containsSub_parts truncMarker
      (promptPre ++ diff.take max_chars) promptPost
    have he : generate_fix_prompt diff
        = (promptPre ++ diff.take max_chars)
          ++ (truncMarker ++ promptPost) := by
      simp [generate_fix_prompt, truncateDiff, h, List.append_assoc]
    rw [he]
    exact hp
  · have hl : (diff.take max_chars).length = max_chars := by
      rw [List.length_take]
      omega
    simp only [generate_fix_prompt, truncateDiff, if_pos h,
      List.length_append, hl]
    omega

/-- C6 amended witness: a diff of 8,001 characters. -/
theorem prompt_truncation_amended_witness :
    max_chars < (List.replicate 8001 'a').length ∧
    (containsSub truncMarker
        (generate_fix_prompt (List.replicate 8001 'a')) = true ∧
      (generate_fix_prompt (List.replicate 8001 'a')).length
        = promptPre.length + max_chars + truncMarker.length
          + promptPost.length) :=
  ⟨by rw [List.length_replicate]; decide,
   prompt_truncation_amended (List.replicate 8001 'a')
     (by rw [List.length_replicate]; decide)⟩

/-- C2 counterexample: a run in which staging/commit fails (`commitOk =
false`) while the push would have succeeded exits with status 1 — and no
push was ever attempted — contradicting the claim that only a post-commit
publish failure exits 1. -/
theorem commit_failure_exits_one_counterexample :
    mainRun ⟨some ("log").toList, some ("x").toList, none,
        some ("diff --git a/f b/f").toList,
        Except.ok (0, []), Except.ok (0, []), false, true⟩
      = Except.ok (1, [Event.fetchDiff, Event.modelCall, Event.applyCheck,
          Event.applyReal, Event.commit]) ∧
    Event.push ∉ [Event.fetchDiff, Event.modelCall, Event.applyCheck,
        Event.applyReal, Event.commit] :=
  ⟨rfl, by decide⟩

/-- C2 amended: for every run that terminates with an exit code (rather
than dying on the unguarded `git log` / double diff failure), the code is
1 exactly when the commit-and-push phase was reached and either the
staging/commit step or the push failed — `main` wraps `commit_changes()`
and `git push` in one handler, so a staging or local-commit failure also
exits 1, not only a post-commit publish failure; every earlier outcome
(ceiling, empty diff, model failure, missing patch, failed dry run or
apply) exits 0. -/
theorem exit_one_iff_commit_phase_failure (env : GitEnv) (c : Nat)
    (evs : List Event) (h : mainRun env = Except.ok (c, evs)) :
    c = 1 ↔ (Event.commit ∈ evs ∧
      (env.commitOk = false ∨ env.pushOk = false)) := by
  cases hlog : env.log with
  | none =>
    rw [mainRun, hlog] at h
    simp at h
  | some log =>
    by_cases h1 : already_healed log
    · have he : mainRun env = Except.ok (0, []) := by
        simp [mainRun, hlog, h1]
      rw [he] at h
      simp only [Except.ok.injEq, Prod.mk.injEq] at h
      obtain ⟨hc, hevs⟩ := h
      subst hc
      subst hevs
      simp
    · cases hgf : get_failures env.diffMain env.diffHead1 with
      | none =>
        have he : mainRun env = Except.error () := by
          simp [mainRun, hlog, h1, hgf]
        rw [he] at h
        simp at h
      | some diff =>
        by_cases h2 : (pyStrip diff).isEmpty
        · have he : mainRun env = Except.ok (0, [Event.fetchDiff]) := by
            simp [mainRun, hlog, h1, hgf, h2]
          rw [he] at h
          simp only [Except.ok.injEq, Prod.mk.injEq] at h
          obtain ⟨hc, hevs⟩ := h
          subst hc
          subst hevs
          simp
        · cases hair : env.aiResponse with
          | none =>
            have he : mainRun env
                = Except.ok (0, [Event.fetchDiff, Event.modelCall]) := by
              simp [mainRun, hlog, h1, hgf, h2, hair]
            rw [he] at h
            simp only [Except.ok.injEq, Prod.mk.injEq] at h
            obtain ⟨hc, hevs⟩ := h
            subst hc
            subst hevs
            simp
          | some response =>
            by_cases h4 :
                containsSub diffGit (extract_patch response) = false
            · have he : mainRun env
                  = Except.ok (0, [Event.fetchDiff, Event.modelCall]) := by
                simp [mainRun, hlog, h1, hgf, h2, hair, h4]
              rw [he] at h
              simp only [Except.ok.injEq, Prod.mk.injEq] at h
              obtain ⟨hc, hevs⟩ := h
              subst hc
              subst hevs
              simp
            · by_cases h5 :
                  (apply_patch ⟨env.checkRun, env.applyRun⟩).1.1 = false
              · have he : mainRun env
                    = Except.ok (0, [Event.fetchDiff, Event.modelCall]
                        ++ (apply_patch ⟨env.checkRun, env.applyRun⟩).2) := by
                  simp [mainRun, hlog, h1, hgf, h2, hair, h4, h5]
                rw [he] at h
                simp only [Except.ok.injEq, Prod.mk.injEq] at h
                obtain ⟨hc, hevs⟩ := h
                subst hc
                subst hevs
                simp [List.mem_append,
                  (commit_push_not_in_apply_events
                    ⟨env.checkRun, env.applyRun⟩).1]
              · by_cases h6 : env.commitOk
                · by_cases h7 : env.pushOk
                  · have he : mainRun env
                        = Except.ok (0, [Event.fetchDiff, Event.modelCall]
                            ++ (apply_patch ⟨env.checkRun, env.applyRun⟩).2
                            ++ [Event.commit, Event.push]) := by
                      simp [mainRun, hlog, h1, hgf, h2, hair, h4, h5, h6, h7]
                    rw [he] at h
                    simp only [Except.ok.injEq, Prod.mk.injEq] at h
                    obtain ⟨hc, hevs⟩ := h
                    subst hc
                    subst hevs
                    simp [h6, h7]
                  · have he : mainRun env
                        = Except.ok (1, [Event.fetchDiff, Event.modelCall]
                            ++ (apply_patch ⟨env.checkRun, env.applyRun⟩).2
                            ++ [Event.commit, Event.push]) := by
                      simp [mainRun, hlog, h1, hgf, h2, hair, h4, h5, h6, h7]
                    rw [he] at h
                    simp only [Except.ok.injEq, Prod.mk.injEq] at h
                    obtain ⟨hc, hevs⟩ := h
                    subst hc
                    subst hevs
                    simp only [Bool.not_eq_true] at h7
                    simp [List.mem_append, h7]
                · have he : mainRun env
                      = Except.ok (1, [Event.fetchDiff, Event.modelCall]
                          ++ (apply_patch ⟨env.checkRun, env.applyRun⟩).2
                          ++ [Event.commit]) := by
                    simp [mainRun, hlog, h1, hgf, h2, hair, h4, h5, h6]
                  rw [he] at h
                  simp only [Except.ok.injEq, Prod.mk.injEq] at h
                  obtain ⟨hc, hevs⟩ := h
                  subst hc
                  subst hevs
                  simp only [Bool.not_eq_true] at h6
                  simp [List.mem_append, h6]

/-- C2 amended witness: a run whose push fails exits 1, and the
characterization instantiated at it. -/
theorem exit_one_iff_commit_phase_failure_witness :
    (1 = 1) ↔ (Event.commit ∈ ([Event.fetchDiff, Event.modelCall]
        ++ [Event.applyCheck, Event.applyReal]
        ++ [Event.commit, Event.push]) ∧
      ((GitEnv.mk (some ("log").toList) (some ("x").toList) none
          (some ("diff --git a/f b/f").toList)
          (Except.ok (0, [])) (Except.ok (0, [])) true false).commitOk
            = false ∨
        (GitEnv.mk (some ("log").toList) (some ("x").toList) none
          (some ("diff --git a/f b/f").toList)
          (Except.ok (0, [])) (Except.ok (0, [])) true false).pushOk
            = false)) :=
  exit_one_iff_commit_phase_failure
    (GitEnv.mk (some ("log").toList) (some ("x").toList) none
      (some ("diff --git a/f b/f").toList)
      (Except.ok (0, [])) (Except.ok (0, [])) true false)
    1
    ([Event.fetchDiff, Event.modelCall]
      ++ [Event.applyCheck, Event.applyReal] ++ [Event.commit, Event.push])
    rfl

/-- C9 witness: an unclosed fence followed by a bare header. -/
theorem unclosed_fence_falls_through_witness :
    extract_patch ("a ```diff\nB diff --git c").toList
      = pyStrip ((("a ```diff\nB diff --git c").toList).drop 12) :=
  (unclosed_fence_falls_through ("a ```diff\nB diff --git c").toList 2
    (by decide) (by decide)).1 12 (by decide)
